import Mathlib

/-!
Verification of the strategy-model subsystem of `trading-server` (`model.py`).

The embedding below translates the two concrete strategy models and the
timeframe-dependency resolver into Lean:

* Bar series are lists of `Bar` records carrying the timestamp, the open
  price and the two (possibly undefined) EMA indicator columns; undefined
  indicator cells are `none` (Python `None`).
* Python list indexing, which accepts negative indices (wraparound) and
  raises `IndexError` when out of range, is modelled by `pyGet`/`pyLastC`.
* Python comparisons between a number and `None`, which raise `TypeError`,
  are modelled by `pyLt`/`pyGt` on `Option` values.
* Fallible code returns `Except PyErr`; `run` of the crossover model returns
  a `RunResult` which distinguishes a normal return, an uncaught exception
  and the `sys.exit(0)` call sitting in the `except IndexError` handler.
* Prices are idealised as rationals (`Rat`); the float literal `0.005`
  of the source is the rational `5 / 1000`.
-/

/-- Python exception kinds raised by the embedded code. -/
inductive PyErr where
  | indexError
  | typeError
  | valueError
deriving DecidableEq

/-- One row of a per-timeframe bar series: the timestamp index, the `open`
column and the two indicator columns `EMA10` / `EMA20` (undefined cells,
coming from indicator warm-up, are `none`). -/
structure Bar where
  time : Nat
  open_ : Rat
  ema10 : Option Rat
  ema20 : Option Rat
deriving DecidableEq

/-- Trade direction carried by a signal event. -/
inductive Direction where
  | LONG
  | SHORT
deriving DecidableEq

/-- The signal event constructed by `run`, field for field in the order of
the `SignalEvent(...)` call in the source. -/
structure SignalEvent where
  symbol : String
  entry_ts : Nat
  direction : Direction
  timeframe : String
  model_name : String
  exchange : String
  entry_price : Rat
  order_type : String
  targets : List (Rat × Nat)
  stop_price : Option Rat
  trail : Option Rat
  flag : Bool
  ident : Option Nat
  op_data : List Bar
deriving DecidableEq

/-- Outcome of one `run` invocation of the crossover model: a normal return
(`ok`), process termination through `sys.exit` (`sysExit`), or an uncaught
Python exception escaping the call (`err`). -/
inductive RunResult where
  | ok (val : Option SignalEvent)
  | sysExit (code : Nat)
  | err (e : PyErr)
deriving DecidableEq

/-- Equality of fallible results is decidable, so concrete runs of the
embedded code can be checked by evaluation. -/
instance {ε α : Type} [DecidableEq ε] [DecidableEq α] : DecidableEq (Except ε α) := fun a b =>
  match a, b with
  | .ok a, .ok b => if h : a = b then .isTrue (by rw [h]) else .isFalse (by simp [h])
  | .error a, .error b => if h : a = b then .isTrue (by rw [h]) else .isFalse (by simp [h])
  | .ok _, .error _ => .isFalse (by simp)
  | .error _, .ok _ => .isFalse (by simp)

/-- Python list indexing `l[j]`: negative indices count from the end;
an index outside `[-len, len)` raises `IndexError`. -/
def pyGet (l : List Bar) (j : Int) : Except PyErr Bar :=
  if 0 ≤ j then
    if j < (l.length : Int) then
      match l.get? j.toNat with
      | some b => Except.ok b
      | none => Except.error PyErr.indexError
    else Except.error PyErr.indexError
  else
    if 0 ≤ (l.length : Int) + j then
      match l.get? ((l.length : Int) + j).toNat with
      | some b => Except.ok b
      | none => Except.error PyErr.indexError
    else Except.error PyErr.indexError

/-- Python `l[-1]` on a candidate list: the last element, or `IndexError`
when the list is empty. -/
def pyLastC (l : List (Rat × Nat)) : Except PyErr (Rat × Nat) :=
  match l.getLast? with
  | some x => Except.ok x
  | none => Except.error PyErr.indexError

/-- Python `a < b` on indicator cells: comparing with `None` raises
`TypeError`. -/
def pyLt (a b : Option Rat) : Except PyErr Bool :=
  match a, b with
  | some x, some y => Except.ok (decide (x < y))
  | _, _ => Except.error PyErr.typeError

/-- Python `a > b` on indicator cells: comparing with `None` raises
`TypeError`. -/
def pyGt (a b : Option Rat) : Except PyErr Bool :=
  match a, b with
  | some x, some y => Except.ok (decide (x > y))
  | _, _ => Except.error PyErr.typeError

namespace EMACrossTestingOnly

/-- `name` attribute of the model. -/
def name : String := "EMA Cross - Testing only"

/-- `operating_timeframes` attribute of the model. -/
def operating_timeframes : List String := ["1Min"]

/-- `lookback` attribute of the model (dict of timeframe to bar count). -/
def lookback : List (String × Nat) :=
  [("1Min", 150), ("3Min", 150), ("5Min", 150), ("15Min", 150), ("30Min", 150),
   ("1H", 150), ("2H", 150), ("3H", 150), ("4H", 150), ("6H", 150), ("8H", 150),
   ("12H", 150), ("16H", 150), ("1D", 150), ("2D", 150), ("3D", 150), ("4D", 150),
   ("7D", 150), ("14D", 150)]

/-- `features` attribute of the model: (kind, function name, parameter). -/
def features : List (String × String × Option Nat) :=
  [("indicator", "EMA", some 10), ("indicator", "EMA", some 20)]

/-- One iteration of the cross-detection loop, at index `i`.  Mirrors the
source line by line: `features[i]`, `features[i - 1]` and `features[i - 2]`
are fetched first (Python wraparound indexing, hence `pyGet` on `Int`
indices); then, when both indicator cells of bar `i` are defined, the
short-cross / long-cross conditions are evaluated with Python short-circuit
`and`, each comparison able to raise `TypeError` on a `None` neighbour. -/
def crossStep (features : List Bar) (longs shorts : List (Rat × Nat)) (i : Nat) :
    Except PyErr (List (Rat × Nat) × List (Rat × Nat)) :=
  match pyGet features (i : Int) with
  | .error e => .error e
  | .ok bar_i =>
    match pyGet features ((i : Int) - 1) with
    | .error e => .error e
    | .ok bar_m1 =>
      match pyGet features ((i : Int) - 2) with
      | .error e => .error e
      | .ok bar_m2 =>
        match bar_i.ema10, bar_i.ema20 with
        | some fast, some slow =>
          if slow > fast then
            match pyLt bar_m1.ema20 bar_m1.ema10 with
            | .error e => .error e
            | .ok false => .ok (longs, shorts)
            | .ok true =>
              match pyLt bar_m2.ema20 bar_m2.ema10 with
              | .error e => .error e
              | .ok false => .ok (longs, shorts)
              | .ok true => .ok (longs, shorts ++ [(bar_i.open_, bar_i.time)])
          else if slow < fast then
            match pyGt bar_m1.ema20 bar_m1.ema10 with
            | .error e => .error e
            | .ok false => .ok (longs, shorts)
            | .ok true =>
              match pyGt bar_m2.ema20 bar_m2.ema10 with
              | .error e => .error e
              | .ok false => .ok (longs, shorts)
              | .ok true => .ok (longs ++ [(bar_i.open_, bar_i.time)], shorts)
          else .ok (longs, shorts)
        | _, _ => .ok (longs, shorts)

/-- The `for i in range(len(...))` loop, run over an explicit index list. -/
def scanIdxs (features : List Bar) :
    List Nat → List (Rat × Nat) → List (Rat × Nat) →
    Except PyErr (List (Rat × Nat) × List (Rat × Nat))
  | [], longs, shorts => Except.ok (longs, shorts)
  | i :: rest, longs, shorts =>
    match crossStep features longs shorts i with
    | .error e => .error e
    | .ok (longs2, shorts2) => scanIdxs features rest longs2 shorts2

/-- The full cross-detection scan over a bar series, producing the `longs`
and `shorts` candidate sets as (open price, timestamp) pairs. -/
def scan (features : List Bar) :
    Except PyErr (List (Rat × Nat) × List (Rat × Nat)) :=
  scanIdxs features (List.range features.length) [] []

/-- Body of the `try:` block that turns the candidate sets into a signal:
`features[-1][0] == longs['time'][-1]` then
`features[-1][0] == shorts['time'][-1]`, each `[-1]` able to raise
`IndexError` on an empty candidate list. -/
def tryBlock (features : List Bar) (longs shorts : List (Rat × Nat))
    (timeframe symbol exchange : String) : Except PyErr (Option SignalEvent) :=
  match pyGet features (-1) with
  | .error e => .error e
  | .ok last_bar =>
    match pyLastC longs with
    | .error e => .error e
    | .ok last_long =>
      if last_bar.time = last_long.2 then
        Except.ok (some
          { symbol := symbol, entry_ts := last_long.2, direction := Direction.LONG,
            timeframe := timeframe, model_name := name, exchange := exchange,
            entry_price := last_long.1, order_type := "Market",
            targets := [(last_long.1 + last_long.1 * (5 / 1000 : Rat), 100)],
            stop_price := none, trail := none, flag := false, ident := none,
            op_data := features })
      else
        match pyLastC shorts with
        | .error e => .error e
        | .ok last_short =>
          if last_bar.time = last_short.2 then
            Except.ok (some
              { symbol := symbol, entry_ts := last_short.2, direction := Direction.SHORT,
                timeframe := timeframe, model_name := name, exchange := exchange,
                entry_price := last_short.1, order_type := "Market",
                targets := [(last_short.1 - last_short.1 * (5 / 1000 : Rat), 100)],
                stop_price := none, trail := none, flag := false, ident := none,
                op_data := features })
          else Except.ok none

/-- `EMACrossTestingOnly.run`.  The outer membership test on
`operating_timeframes`, the scan loop, the emptiness test on the candidate
sets, and the `try: ... except IndexError: ... sys.exit(0)` handler. -/
def run (op_data : String → List Bar) (req_data : List (List Bar))
    (timeframe symbol exchange : String) : RunResult :=
  if timeframe ∈ operating_timeframes then
    match scan (op_data timeframe) with
    | .error e => RunResult.err e
    | .ok (longs, shorts) =>
      if 0 < longs.length ∨ 0 < shorts.length then
        match tryBlock (op_data timeframe) longs shorts timeframe symbol exchange with
        | .ok r => RunResult.ok r
        | .error PyErr.indexError => RunResult.sysExit 0
        | .error e => RunResult.err e
      else RunResult.ok none
  else RunResult.ok none

/-- `EMACrossTestingOnly.get_required_timeframes`: returns the input list
itself when `result` is set, otherwise does nothing.  The first component
of the value is the Python return value, the second the final state of the
caller's list. -/
def get_required_timeframes (timeframes : List String) (result : Bool) :
    Option (List String) × List String :=
  if result then (some timeframes, timeframes) else (none, timeframes)

end EMACrossTestingOnly

namespace EQTrendFollowing

/-- `name` attribute of the model. -/
def name : String := "10/20 EMA EQ Trend-following"

/-- `operating_timeframes` attribute of the model. -/
def operating_timeframes : List String :=
  ["1Min", "5Min", "15Min", "30Min", "1H", "2H", "3H", "4H",
   "6H", "8H", "12H", "16H", "1D", "2D", "3D", "7D", "14D"]

/-- `lookback` attribute of the model (dict of timeframe to bar count). -/
def lookback : List (String × Nat) :=
  [("1Min", 150), ("3Min", 150), ("5Min", 150), ("15Min", 150), ("30Min", 150),
   ("1H", 150), ("2H", 150), ("3H", 150), ("4H", 150), ("6H", 150), ("8H", 150),
   ("12H", 150), ("16H", 150), ("1D", 150), ("2D", 150), ("3D", 150), ("4D", 150),
   ("7D", 150), ("14D", 150)]

/-- `EQTrendFollowing.run`: the model logic is not implemented in the
source (`signal = None` followed by `if signal: ... else: return None`),
so every invocation returns `None`. -/
def run (op_data : String → List Bar) (req_data : List (List Bar))
    (timeframe symbol exchange : String) : Option SignalEvent :=
  let signal : Option SignalEvent := none
  match signal with
  | some s => some s
  | none => none

/-- Python `int(''.join(filter(str.isdigit, tf)))` digit-string value. -/
def pyInt (ds : List Char) : Nat :=
  ds.foldl (fun a c => 10 * a + (c.toNat - 48)) 0

/-- `re.findall("[a-zA-Z]+", tf)` helper: maximal alphabetic runs, with the
run collected so far held reversed in `acc`. -/
def alphaRunsAux : List Char → List Char → List (List Char)
  | [], acc => if acc = [] then [] else [acc.reverse]
  | c :: rest, acc =>
    if c.isAlpha then alphaRunsAux rest (c :: acc)
    else if acc = [] then alphaRunsAux rest []
    else acc.reverse :: alphaRunsAux rest []

/-- `re.findall("[a-zA-Z]+", tf)`: the maximal alphabetic runs of `tf`. -/
def alphaRuns (cs : List Char) : List (List Char) :=
  alphaRunsAux cs []

/-- The generic fallback of the resolver:
`num = int(''.join(filter(str.isdigit, timeframe)))` (a digit-free code
makes `int('')` raise `ValueError`), then
`code = re.findall("[a-zA-Z]+", timeframe)` and `str(num * 2) + code[0]`
(`code[0]` raises `IndexError` when there is no alphabetic run). -/
def doubled (timeframe : String) : Except PyErr String :=
  match timeframe.data.filter Char.isDigit with
  | [] => Except.error PyErr.valueError
  | d :: ds =>
    match alphaRuns timeframe.data with
    | [] => Except.error PyErr.indexError
    | r :: _ => Except.ok (Nat.repr (2 * pyInt (d :: ds)) ++ String.mk r)

/-- One iteration of the resolver loop: the explicit canonical table with
its `not in timeframes and not in to_add` deduplication guard, and the
generic doubling fallback which appends unconditionally. -/
def step (timeframes to_add : List String) (timeframe : String) :
    Except PyErr (List String) :=
  if timeframe = "1Min" then
    Except.ok (if "3Min" ∉ timeframes ∧ "3Min" ∉ to_add then to_add ++ ["3Min"] else to_add)
  else if timeframe = "3Min" then
    Except.ok (if "5Min" ∉ timeframes ∧ "5Min" ∉ to_add then to_add ++ ["5Min"] else to_add)
  else if timeframe = "5Min" then
    Except.ok (if "15Min" ∉ timeframes ∧ "15Min" ∉ to_add then to_add ++ ["15Min"] else to_add)
  else if timeframe = "30Min" then
    Except.ok (if "1H" ∉ timeframes ∧ "1H" ∉ to_add then to_add ++ ["1H"] else to_add)
  else if timeframe = "12H" ∨ timeframe = "16H" then
    Except.ok (if "1D" ∉ timeframes ∧ "1D" ∉ to_add then to_add ++ ["1D"] else to_add)
  else if timeframe = "3D" then
    Except.ok (if "7D" ∉ timeframes ∧ "7D" ∉ to_add then to_add ++ ["7D"] else to_add)
  else
    match doubled timeframe with
    | .error e => .error e
    | .ok c => Except.ok (to_add ++ [c])

/-- The resolver loop over the remaining input elements, accumulating
`to_add`; the membership guard always consults the original input list. -/
def toAddAux (timeframes : List String) :
    List String → List String → Except PyErr (List String)
  | [], to_add => Except.ok to_add
  | tf :: rest, to_add =>
    match step timeframes to_add tf with
    | .error e => .error e
    | .ok to_add2 => toAddAux timeframes rest to_add2

/-- The `to_add` list computed by `get_required_timeframes` for a given
input list. -/
def toAdd (timeframes : List String) : Except PyErr (List String) :=
  toAddAux timeframes timeframes []

/-- `EQTrendFollowing.get_required_timeframes`.  The first component of the
value is the Python return value (`None` in mutate mode, the new list in
`result` mode), the second the final state of the caller's list (amended in
place in mutate mode, untouched in `result` mode). -/
def get_required_timeframes (timeframes : List String) (result : Bool) :
    Except PyErr (Option (List String) × List String) :=
  match toAdd timeframes with
  | .error e => .error e
  | .ok to_add =>
    if result then Except.ok (some to_add, timeframes)
    else Except.ok (none, timeframes ++ to_add)

/-- The domain of the explicit canonical mapping of the resolver. -/
def explicitCodes : List String :=
  ["1Min", "3Min", "5Min", "30Min", "12H", "16H", "3D"]

end EQTrendFollowing

/-- Constant bar-data mapping used to build concrete `op_data` arguments. -/
def constData (bars : List Bar) : String → List Bar := fun _ => bars

/-- A digit-free timeframe code test: true when no character of the code is
a decimal digit. -/
def noDigits (tf : String) : Bool :=
  tf.data.all (fun c => !c.isDigit)

/-- All characters are decimal digits. -/
def allDigits (d : List Char) : Bool := d.all Char.isDigit

/-- All characters are ASCII letters. -/
def allAlpha (s : List Char) : Bool := s.all Char.isAlpha

/-- A three-bar series whose only cross is a short cross at the final bar:
the short candidate set is non-empty while the long candidate set is empty. -/
def shortOnlyBars : List Bar :=
  [ { time := 0, open_ := 100, ema10 := some 10, ema20 := some 5 },
    { time := 1, open_ := 101, ema10 := some 10, ema20 := some 5 },
    { time := 2, open_ := 102, ema10 := some 5, ema20 := some 10 } ]

/-- A second three-bar series of the same shape (short cross at the final
bar, no long candidates), with different prices and timestamps. -/
def shortOnlyBars2 : List Bar :=
  [ { time := 10, open_ := 200, ema10 := some 30, ema20 := some 25 },
    { time := 11, open_ := 201, ema10 := some 30, ema20 := some 25 },
    { time := 12, open_ := 202, ema10 := some 25, ema20 := some 30 } ]

/-- A single-bar series with both indicators defined. -/
def singleBar : List Bar :=
  [ { time := 0, open_ := 100, ema10 := some 10, ema20 := some 20 } ]

/-- A six-bar series with a long cross at index 2 and a short cross at the
final bar, so both candidate sets are non-empty. -/
def bothSidesBars : List Bar :=
  [ { time := 0, open_ := 100, ema10 := some 10, ema20 := some 20 },
    { time := 1, open_ := 101, ema10 := some 10, ema20 := some 20 },
    { time := 2, open_ := 102, ema10 := some 20, ema20 := some 10 },
    { time := 3, open_ := 103, ema10 := some 20, ema20 := some 10 },
    { time := 4, open_ := 104, ema10 := some 20, ema20 := some 10 },
    { time := 5, open_ := 105, ema10 := some 10, ema20 := some 20 } ]

/-- A three-bar series with a clean long cross at the final bar and no
short candidates. -/
def cleanLongBars : List Bar :=
  [ { time := 0, open_ := 100, ema10 := some 10, ema20 := some 20 },
    { time := 1, open_ := 101, ema10 := some 10, ema20 := some 20 },
    { time := 2, open_ := 102, ema10 := some 20, ema20 := some 10 } ]

/-- An ASCII letter is not a decimal digit. -/
theorem alpha_not_digit (c : Char) (h : c.isAlpha = true) : c.isDigit = false := by
  cases hd : c.isDigit with
  | false => rfl
  | true =>
    exfalso
    simp only [Char.isAlpha, Char.isUpper, Char.isLower, Char.isDigit, Bool.or_eq_true,
      Bool.and_eq_true, decide_eq_true_eq, UInt32.le_def, BitVec.le_def,
      show (UInt32.toBitVec 65).toNat = 65 from rfl, show (UInt32.toBitVec 90).toNat = 90 from rfl,
      show (UInt32.toBitVec 97).toNat = 97 from rfl, show (UInt32.toBitVec 122).toNat = 122 from rfl,
      show (UInt32.toBitVec 48).toNat = 48 from rfl, show (UInt32.toBitVec 57).toNat = 57 from rfl]
      at h hd
    omega

/-- A decimal digit is not an ASCII letter. -/
theorem digit_not_alpha (c : Char) (h : c.isDigit = true) : c.isAlpha = false := by
  cases hd : c.isAlpha with
  | false => rfl
  | true =>
    exfalso
    simp only [Char.isAlpha, Char.isUpper, Char.isLower, Char.isDigit, Bool.or_eq_true,
      Bool.and_eq_true, decide_eq_true_eq, UInt32.le_def, BitVec.le_def,
      show (UInt32.toBitVec 65).toNat = 65 from rfl, show (UInt32.toBitVec 90).toNat = 90 from rfl,
      show (UInt32.toBitVec 97).toNat = 97 from rfl, show (UInt32.toBitVec 122).toNat = 122 from rfl,
      show (UInt32.toBitVec 48).toNat = 48 from rfl, show (UInt32.toBitVec 57).toNat = 57 from rfl]
      at h hd
    omega

/-- The deduplication guard of the explicit table preserves the loop
invariant: everything accumulated so far is outside the input list and the
accumulator has no duplicates. -/
theorem addguard_inv (T acc : List String) (c : String)
    (hd : ∀ x ∈ acc, x ∉ T) (hn : acc.Nodup) :
    (∀ x ∈ (if c ∉ T ∧ c ∉ acc then acc ++ [c] else acc), x ∉ T) ∧
    (if c ∉ T ∧ c ∉ acc then acc ++ [c] else acc).Nodup := by
  split_ifs with h
  · refine ⟨?_, ?_⟩
    · intro x hx
      rcases List.mem_append.mp hx with hx | hx
      · exact hd x hx
      · rw [List.mem_singleton.mp hx]
        exact h.1
    · refine List.nodup_append.mpr ⟨hn, List.nodup_singleton c, ?_⟩
      intro a ha hc
      rw [List.mem_singleton.mp hc] at ha
      exact h.2 ha
  · exact ⟨hd, hn⟩

/-- For a timeframe code in the explicit table, one resolver iteration is
exactly the guarded addition of the mapped code. -/
theorem step_explicit (T acc : List String) (tf : String)
    (h : tf ∈ EQTrendFollowing.explicitCodes) :
    ∃ c, EQTrendFollowing.step T acc tf =
      Except.ok (if c ∉ T ∧ c ∉ acc then acc ++ [c] else acc) := by
  simp only [EQTrendFollowing.explicitCodes, List.mem_cons, List.not_mem_nil, or_false] at h
  rcases h with rfl | rfl | rfl | rfl | rfl | rfl | rfl
  · exact ⟨"3Min", rfl⟩
  · exact ⟨"5Min", rfl⟩
  · exact ⟨"15Min", rfl⟩
  · exact ⟨"1H", rfl⟩
  · exact ⟨"1D", rfl⟩
  · exact ⟨"1D", rfl⟩
  · exact ⟨"7D", rfl⟩

/-- Loop invariant for the resolver over inputs drawn from the explicit
table: the loop succeeds and its accumulated `to_add` stays disjoint from
the input list and duplicate-free. -/
theorem toAddAux_inv (T : List String) :
    ∀ L acc : List String, (∀ tf ∈ L, tf ∈ EQTrendFollowing.explicitCodes) →
    (∀ x ∈ acc, x ∉ T) → acc.Nodup →
    ∃ A, EQTrendFollowing.toAddAux T L acc = Except.ok A ∧
      (∀ x ∈ A, x ∉ T) ∧ A.Nodup := by
  intro L
  induction L with
  | nil => exact fun acc _ hd hn => ⟨acc, rfl, hd, hn⟩
  | cons tf rest ih =>
    intro acc hL hd hn
    obtain ⟨c, hc⟩ := step_explicit T acc tf (hL tf (List.mem_cons_self tf rest))
    obtain ⟨hd2, hn2⟩ := addguard_inv T acc c hd hn
    obtain ⟨A, hA, hAd, hAn⟩ := ih _ (fun x hx => hL x (List.mem_cons_of_mem _ hx)) hd2 hn2
    refine ⟨A, ?_, hAd, hAn⟩
    simp only [EQTrendFollowing.toAddAux, hc]
    exact hA

/-- A wholly non-alphabetic prefix contributes nothing to the alphabetic
runs when no run is open. -/
theorem alphaRunsAux_skip (rest : List Char) :
    ∀ d : List Char, (∀ c ∈ d, c.isAlpha = false) →
    EQTrendFollowing.alphaRunsAux (d ++ rest) [] = EQTrendFollowing.alphaRunsAux rest [] := by
  intro d
  induction d with
  | nil => intro _; rfl
  | cons c d ih =>
    intro h
    simp only [List.cons_append, EQTrendFollowing.alphaRunsAux,
      h c (List.mem_cons_self c d), Bool.false_eq_true, if_false, if_pos rfl]
    exact ih (fun x hx => h x (List.mem_cons_of_mem _ hx))

/-- Scanning a wholly alphabetic tail closes it into a single run together
with the currently open run. -/
theorem alphaRunsAux_all (s : List Char) :
    ∀ acc : List Char, (∀ c ∈ s, c.isAlpha = true) →
    EQTrendFollowing.alphaRunsAux s acc =
      if acc.reverse ++ s = [] then [] else [acc.reverse ++ s] := by
  induction s with
  | nil =>
    intro acc _
    simp only [EQTrendFollowing.alphaRunsAux, List.append_nil, List.reverse_eq_nil_iff]
  | cons c s ih =>
    intro acc h
    simp only [EQTrendFollowing.alphaRunsAux, h c (List.mem_cons_self c s), if_pos rfl,
      ih (c :: acc) (fun x hx => h x (List.mem_cons_of_mem _ hx)), List.reverse_cons,
      List.append_assoc, List.singleton_append, List.append_eq_nil, List.reverse_eq_nil_iff,
      and_false, if_false, if_true, ite_true]

/-- The alphabetic runs of a digit-prefixed, letter-suffixed code form the
single run equal to the letter suffix. -/
theorem alphaRuns_of_code (d s : List Char) (hd : allDigits d = true)
    (hs : allAlpha s = true) (hne : s ≠ []) :
    EQTrendFollowing.alphaRuns (d ++ s) = [s] := by
  have hna : ∀ c ∈ d, c.isAlpha = false := fun c hc =>
    digit_not_alpha c (List.all_eq_true.mp hd c hc)
  have ha : ∀ c ∈ s, c.isAlpha = true := fun c hc => List.all_eq_true.mp hs c hc
  unfold EQTrendFollowing.alphaRuns
  rw [alphaRunsAux_skip s d hna, alphaRunsAux_all s [] ha]
  simp [hne]

/-- Filtering the digits out of a digit-prefixed, letter-suffixed code
recovers the digit prefix. -/
theorem filter_digits_of_code (d s : List Char) (hd : allDigits d = true)
    (hs : allAlpha s = true) :
    (d ++ s).filter Char.isDigit = d := by
  rw [List.filter_append]
  rw [List.filter_eq_self.mpr (fun c hc => List.all_eq_true.mp hd c hc)]
  rw [List.filter_eq_nil_iff.mpr
    (fun c hc => by simp [alpha_not_digit c (List.all_eq_true.mp hs c hc)])]
  exact List.append_nil d

/-- The generic doubling fallback on a well-formed code: double the digit
prefix value, keep the letter suffix. -/
theorem doubled_of_code (d s : List Char) (hdne : d ≠ []) (hd : allDigits d = true)
    (hsne : s ≠ []) (hs : allAlpha s = true) :
    EQTrendFollowing.doubled (String.mk (d ++ s)) =
      Except.ok (Nat.repr (2 * EQTrendFollowing.pyInt d) ++ String.mk s) := by
  obtain ⟨c0, d0, rfl⟩ := List.exists_cons_of_ne_nil hdne
  obtain ⟨e0, s0, rfl⟩ := List.exists_cons_of_ne_nil hsne
  have hdata : (String.mk ((c0 :: d0) ++ (e0 :: s0))).data = (c0 :: d0) ++ (e0 :: s0) := rfl
  unfold EQTrendFollowing.doubled
  rw [hdata, filter_digits_of_code _ _ hd hs, alphaRuns_of_code _ _ hd hs (by simp)]

/-- Claim C9: for every timeframe code containing no digit characters, the
resolver's generic fallback fails with a parsing error (`int('')` raises
`ValueError`) rather than returning a result, both for the fallback alone
and for a `get_required_timeframes` loop reaching it. -/
theorem eq_resolver_digit_free_value_error (tf : String) (h : noDigits tf = true) :
    EQTrendFollowing.doubled tf = Except.error PyErr.valueError ∧
    EQTrendFollowing.toAdd [tf] = Except.error PyErr.valueError := by
  have hall : tf.data.all (fun c => !c.isDigit) = true := h
  have hfil : tf.data.filter Char.isDigit = [] :=
    List.filter_eq_nil_iff.mpr (fun c hc => by
      simp only [Bool.not_eq_true]
      simpa using List.all_eq_true.mp hall c hc)
  have hdbl : EQTrendFollowing.doubled tf = Except.error PyErr.valueError := by
    simp only [EQTrendFollowing.doubled, hfil]
  have h1 : tf ≠ "1Min" := by rintro rfl; exact absurd h (by decide)
  have h2 : tf ≠ "3Min" := by rintro rfl; exact absurd h (by decide)
  have h3 : tf ≠ "5Min" := by rintro rfl; exact absurd h (by decide)
  have h4 : tf ≠ "30Min" := by rintro rfl; exact absurd h (by decide)
  have h5 : tf ≠ "12H" := by rintro rfl; exact absurd h (by decide)
  have h6 : tf ≠ "16H" := by rintro rfl; exact absurd h (by decide)
  have h7 : tf ≠ "3D" := by rintro rfl; exact absurd h (by decide)
  have hstep : EQTrendFollowing.step [tf] [] tf = Except.error PyErr.valueError := by
    simp only [EQTrendFollowing.step, if_neg h1, if_neg h2, if_neg h3, if_neg h4,
      if_neg (not_or.mpr ⟨h5, h6⟩), if_neg h7, hdbl]
  refine ⟨hdbl, ?_⟩
  simp only [EQTrendFollowing.toAdd, EQTrendFollowing.toAddAux, hstep]

/-- Claim C9 witness: the digit-free code "H" satisfies the hypothesis and
makes the resolver fail with `ValueError`. -/
theorem eq_resolver_digit_free_value_error_w :
    noDigits "H" = true ∧
    (EQTrendFollowing.doubled "H" = Except.error PyErr.valueError ∧
     EQTrendFollowing.toAdd ["H"] = Except.error PyErr.valueError) :=
  ⟨by decide, eq_resolver_digit_free_value_error "H" (by decide)⟩

/-- Claim C6: the resolver maps each code of the explicit table exactly per
the table, and maps every well-formed code (digit prefix, letter suffix)
outside the table by doubling the parsed numeric magnitude and keeping the
letter suffix. -/
theorem eq_resolver_table_and_doubling :
    (EQTrendFollowing.toAdd ["1Min"] = Except.ok ["3Min"] ∧
     EQTrendFollowing.toAdd ["3Min"] = Except.ok ["5Min"] ∧
     EQTrendFollowing.toAdd ["5Min"] = Except.ok ["15Min"] ∧
     EQTrendFollowing.toAdd ["30Min"] = Except.ok ["1H"] ∧
     EQTrendFollowing.toAdd ["12H"] = Except.ok ["1D"] ∧
     EQTrendFollowing.toAdd ["16H"] = Except.ok ["1D"] ∧
     EQTrendFollowing.toAdd ["3D"] = Except.ok ["7D"]) ∧
    (∀ d s : List Char, d ≠ [] → allDigits d = true → s ≠ [] → allAlpha s = true →
      String.mk (d ++ s) ∉ EQTrendFollowing.explicitCodes →
      EQTrendFollowing.doubled (String.mk (d ++ s)) =
        Except.ok (Nat.repr (2 * EQTrendFollowing.pyInt d) ++ String.mk s) ∧
      EQTrendFollowing.toAdd [String.mk (d ++ s)] =
        Except.ok [Nat.repr (2 * EQTrendFollowing.pyInt d) ++ String.mk s]) := by
  constructor
  · exact ⟨by decide, by decide, by decide, by decide, by decide, by decide, by decide⟩
  · intro d s hdne hd hsne hs h7
    have hdbl := doubled_of_code d s hdne hd hsne hs
    refine ⟨hdbl, ?_⟩
    simp only [EQTrendFollowing.explicitCodes, List.mem_cons, List.not_mem_nil, or_false,
      not_or] at h7
    obtain ⟨h1, h2, h3, h4, h5, h6, h7d⟩ := h7
    have hstep : EQTrendFollowing.step [String.mk (d ++ s)] [] (String.mk (d ++ s)) =
        Except.ok [Nat.repr (2 * EQTrendFollowing.pyInt d) ++ String.mk s] := by
      simp only [EQTrendFollowing.step, if_neg h1, if_neg h2, if_neg h3, if_neg h4,
        if_neg (not_or.mpr ⟨h5, h6⟩), if_neg h7d, hdbl, List.nil_append]
    simp only [EQTrendFollowing.toAdd, EQTrendFollowing.toAddAux, hstep]

/-- Claim C6 witness: the non-table code "4H" is well formed and doubles to
"8H". -/
theorem eq_resolver_table_and_doubling_w :
    allDigits ['4'] = true ∧ allAlpha ['H'] = true ∧
    (EQTrendFollowing.doubled (String.mk (['4'] ++ ['H'])) =
       Except.ok (Nat.repr (2 * EQTrendFollowing.pyInt ['4']) ++ String.mk ['H']) ∧
     EQTrendFollowing.toAdd [String.mk (['4'] ++ ['H'])] =
       Except.ok [Nat.repr (2 * EQTrendFollowing.pyInt ['4']) ++ String.mk ['H']]) :=
  ⟨by decide, by decide,
    eq_resolver_table_and_doubling.2 ['4'] ['H'] (by decide) (by decide) (by decide)
      (by decide) (by decide)⟩

/-- Claim C2 counterexample: on the input list ["1H", "2H"] the result-mode
call returns ["2H", "4H"], which is not disjoint from the input ("2H" is in
both), refuting the claim as stated. -/
theorem eq_required_result_not_disjoint_cex :
    EQTrendFollowing.get_required_timeframes ["1H", "2H"] true =
      Except.ok (some ["2H", "4H"], ["1H", "2H"]) ∧
    "2H" ∈ (["2H", "4H"] : List String) ∧ "2H" ∈ (["1H", "2H"] : List String) := by decide

/-- Claim C2 (amended): whenever every element of the input is one of the
seven explicit-table codes, the result-mode list is disjoint from the input
and duplicate-free (only explicit-table candidates pass the deduplication
guard; generic-fallback candidates are appended unconditionally); and for
the testing model, result mode returns the input list itself. -/
theorem eq_required_result_dedup_explicit_table :
    (∀ T A : List String, (∀ tf ∈ T, tf ∈ EQTrendFollowing.explicitCodes) →
      EQTrendFollowing.get_required_timeframes T true = Except.ok (some A, T) →
      A.inter T = [] ∧ A.Nodup) ∧
    (∀ T : List String, EMACrossTestingOnly.get_required_timeframes T true = (some T, T)) := by
  constructor
  · intro T A hT hget
    obtain ⟨A0, h0, h0d, h0n⟩ :=
      toAddAux_inv T T [] hT (fun x hx => absurd hx (List.not_mem_nil x)) List.nodup_nil
    have htoAdd : EQTrendFollowing.toAdd T = Except.ok A0 := h0
    simp only [EQTrendFollowing.get_required_timeframes, htoAdd, if_pos,
      Except.ok.injEq, Prod.mk.injEq, Option.some.injEq, and_true] at hget
    rw [← hget]
    exact ⟨List.inter_eq_nil_iff_disjoint.mpr (fun a ha hb => h0d a ha hb), h0n⟩
  · intro T
    rfl

/-- Claim C2 witness: an all-explicit input list with two codes mapping to
the same candidate; the result is disjoint from the input and has no
duplicate. -/
theorem eq_required_result_dedup_explicit_table_w :
    List.inter ["3Min", "1D"] ["1Min", "12H", "16H"] = [] ∧
    (["3Min", "1D"] : List String).Nodup :=
  eq_required_result_dedup_explicit_table.1 ["1Min", "12H", "16H"] ["3Min", "1D"]
    (by decide) (by decide)

/-- Claim C7 counterexample: on the input list ["1H", "2H"] the mutate-mode
call leaves the list as ["1H", "2H", "2H", "4H"], which contains the
duplicate "2H", refuting the no-duplicates part of the claim as stated. -/
theorem eq_required_inplace_duplicates_cex :
    EQTrendFollowing.get_required_timeframes ["1H", "2H"] false =
      Except.ok (none, ["1H", "2H", "2H", "4H"]) ∧
    ¬ (["1H", "2H", "2H", "4H"] : List String).Nodup := by decide

/-- Claim C7 (amended): mutate mode appends exactly the required
timeframes (the list result mode would return) to the input and returns no
value; when the input is duplicate-free and drawn from the explicit table,
the final list is exactly the union with no duplicates. -/
theorem eq_required_inplace_union (T A : List String)
    (hT : ∀ tf ∈ T, tf ∈ EQTrendFollowing.explicitCodes) (hN : T.Nodup)
    (hA : EQTrendFollowing.toAdd T = Except.ok A) :
    EQTrendFollowing.get_required_timeframes T false = Except.ok (none, T ++ A) ∧
    EQTrendFollowing.get_required_timeframes T true = Except.ok (some A, T) ∧
    (T ++ A).Nodup := by
  obtain ⟨A0, h0, h0d, h0n⟩ :=
    toAddAux_inv T T [] hT (fun x hx => absurd hx (List.not_mem_nil x)) List.nodup_nil
  have htoAdd : EQTrendFollowing.toAdd T = Except.ok A0 := h0
  have hAA : A = A0 := by
    rw [htoAdd] at hA
    exact (Except.ok.inj hA).symm
  subst hAA
  refine ⟨?_, ?_, ?_⟩
  · simp [EQTrendFollowing.get_required_timeframes, htoAdd]
  · simp [EQTrendFollowing.get_required_timeframes, htoAdd]
  · exact List.nodup_append.mpr ⟨hN, h0n, fun a ha hb => h0d a hb ha⟩

/-- Claim C7 witness: on an all-explicit duplicate-free input, mutate mode
appends the required codes, the result-mode list matches, and the final
list has no duplicates. -/
theorem eq_required_inplace_union_w :
    EQTrendFollowing.get_required_timeframes ["1Min", "12H", "16H"] false =
      Except.ok (none, ["1Min", "12H", "16H"] ++ ["3Min", "1D"]) ∧
    EQTrendFollowing.get_required_timeframes ["1Min", "12H", "16H"] true =
      Except.ok (some ["3Min", "1D"], ["1Min", "12H", "16H"]) ∧
    ((["1Min", "12H", "16H"] : List String) ++ ["3Min", "1D"]).Nodup :=
  eq_required_inplace_union ["1Min", "12H", "16H"] ["3Min", "1D"]
    (by decide) (by decide) (by decide)

/-- Claim C10: the trend-following model's `run` returns `None` on every
input (the model logic is not implemented). -/
theorem eq_run_always_none (op_data : String → List Bar) (req_data : List (List Bar))
    (timeframe symbol exchange : String) :
    EQTrendFollowing.run op_data req_data timeframe symbol exchange = none := rfl

/-- Claim C8: when the supplied timeframe is not an operating timeframe of
the crossover model, `run` is a no-op returning no signal, whatever the bar
data. -/
theorem ema_run_non_operating_timeframe_noop (op_data : String → List Bar)
    (req_data : List (List Bar)) (timeframe symbol exchange : String)
    (h : timeframe ∉ EMACrossTestingOnly.operating_timeframes) :
    EMACrossTestingOnly.run op_data req_data timeframe symbol exchange = RunResult.ok none := by
  simp only [EMACrossTestingOnly.run, if_neg h]

/-- Claim C8 witness: "5Min" is not an operating timeframe and the call
returns no signal on concrete bar data. -/
theorem ema_run_non_operating_timeframe_noop_w :
    "5Min" ∉ EMACrossTestingOnly.operating_timeframes ∧
    EMACrossTestingOnly.run (constData shortOnlyBars) [] "5Min" "XBTUSD" "BitMEX" =
      RunResult.ok none :=
  ⟨by decide, ema_run_non_operating_timeframe_noop _ _ _ _ _ (by decide)⟩

/-- Claim C1: on a series whose only cross is a short cross at the final
bar, the long candidate set is empty, the `IndexError` raised by
`longs['time'][-1]` is caught, and the call terminates the hosting process
through `sys.exit(0)` instead of absorbing the anomaly. -/
theorem ema_run_one_sided_candidates_terminate :
    EMACrossTestingOnly.scan shortOnlyBars = Except.ok ([], [((102 : Rat), 2)]) ∧
    EMACrossTestingOnly.run (constData shortOnlyBars) [] "1Min" "XBTUSD" "BitMEX" =
      RunResult.sysExit 0 := by decide

/-- Claim C3: on a single-bar series the loop body evaluates
`features[-2]`, whose wraparound index is still out of range, and the
uncaught `IndexError` escapes `run`; there is no explicit guard. -/
theorem ema_run_single_bar_uncaught_index_error :
    EMACrossTestingOnly.scan singleBar = Except.error PyErr.indexError ∧
    EMACrossTestingOnly.run (constData singleBar) [] "1Min" "XBTUSD" "BitMEX" =
      RunResult.err PyErr.indexError := by decide

/-- Claim C4 counterexample: a series whose final bar is the latest short
trigger while the long candidate set is empty makes `run` terminate the
process via `sys.exit(0)` instead of emitting the SHORT signal the claim
requires. -/
theorem ema_run_short_trigger_aborts_cex :
    EMACrossTestingOnly.scan shortOnlyBars2 = Except.ok ([], [((202 : Rat), 12)]) ∧
    EMACrossTestingOnly.run (constData shortOnlyBars2) [] "1Min" "XBTUSD" "BitMEX" =
      RunResult.sysExit 0 := by decide

/-- A non-negative Python index inside the list fetches the element. -/
theorem pyGet_ofNat (l : List Bar) (i : Nat) (b : Bar) (h : l.get? i = some b) :
    pyGet l (i : Int) = Except.ok b := by
  obtain ⟨hlt, -⟩ := List.get?_eq_some.mp h
  simp only [pyGet]
  rw [if_pos (by omega : (0 : Int) ≤ (i : Int)),
    if_pos (by exact_mod_cast hlt : ((i : Int) < (l.length : Int)))]
  have hk : ((i : Int)).toNat = i := by omega
  rw [hk, h]

/-- Python index `-1` on a non-empty list fetches the last element. -/
theorem pyGet_neg_one (l : List Bar) (b : Bar) (h : l.getLast? = some b) :
    pyGet l (-1) = Except.ok b := by
  have hne : l ≠ [] := by rintro rfl; simp at h
  have hlen : 1 ≤ l.length := List.length_pos.mpr hne
  have hget : l.get? (l.length - 1) = some b := by
    rw [List.get?_eq_getElem?, ← List.getLast?_eq_getElem?]
    exact h
  simp only [pyGet]
  rw [if_neg (by decide : ¬ (0 ≤ (-1 : Int))), if_pos (by omega : 0 ≤ (l.length : Int) + (-1))]
  have hk : ((l.length : Int) + (-1)).toNat = l.length - 1 := by omega
  rw [hk, hget]

/-- Splitting the scan loop across an index-list concatenation. -/
theorem scanIdxs_append (f : List Bar) (l1 l2 : List Nat) :
    ∀ longs shorts : List (Rat × Nat),
      EMACrossTestingOnly.scanIdxs f (l1 ++ l2) longs shorts =
        match EMACrossTestingOnly.scanIdxs f l1 longs shorts with
        | .error e => .error e
        | .ok (a, b) => EMACrossTestingOnly.scanIdxs f l2 a b := by
  induction l1 with
  | nil => intro longs shorts; rfl
  | cons i rest ih =>
    intro longs shorts
    cases h : EMACrossTestingOnly.crossStep f longs shorts i with
    | error e => simp only [List.cons_append, EMACrossTestingOnly.scanIdxs, h]
    | ok p =>
      obtain ⟨a, b⟩ := p
      simp only [List.cons_append, EMACrossTestingOnly.scanIdxs, h]
      exact ih a b

/-- The loop iteration at an index carrying a clean long cross (both
indicators defined at the bar and its two predecessors, slow below fast
now, slow above fast at both predecessors) appends that bar to the long
candidates and leaves the shorts unchanged. -/
theorem crossStep_long (f : List Bar) (longs shorts : List (Rat × Nat)) (i : Nat)
    (b b1 b2 : Bar) (fb sb f1 s1 f2 s2 : Rat)
    (hb : pyGet f (i : Int) = Except.ok b)
    (hb1 : pyGet f ((i : Int) - 1) = Except.ok b1)
    (hb2 : pyGet f ((i : Int) - 2) = Except.ok b2)
    (hf : b.ema10 = some fb) (hs : b.ema20 = some sb) (hlt : sb < fb)
    (hf1 : b1.ema10 = some f1) (hs1 : b1.ema20 = some s1) (hgt1 : s1 > f1)
    (hf2 : b2.ema10 = some f2) (hs2 : b2.ema20 = some s2) (hgt2 : s2 > f2) :
    EMACrossTestingOnly.crossStep f longs shorts i =
      Except.ok (longs ++ [(b.open_, b.time)], shorts) := by
  simp only [EMACrossTestingOnly.crossStep, hb, hb1, hb2, hf, hs, hf1, hs1, hf2, hs2, pyGt]
  rw [if_neg (by exact lt_asymm hlt), if_pos hlt]
  simp [hgt1, hgt2]

/-- Claim C4 (amended): provided the long candidate set is non-empty, a
series whose final bar's timestamp equals the latest short trigger and
differs from the latest long trigger makes `run` emit exactly one SHORT
signal with take-profit at entry price minus 0.5%; and when neither latest
trigger matches the final bar (both candidate sets non-empty), `run` emits
nothing. -/
theorem ema_run_latest_trigger_selection (op_data : String → List Bar)
    (req_data : List (List Bar)) (symbol exchange : String)
    (longs shorts : List (Rat × Nat)) (lp sp : Rat) (lt st : Nat) (b : Bar)
    (hscan : EMACrossTestingOnly.scan (op_data "1Min") = Except.ok (longs, shorts))
    (hlong : longs.getLast? = some (lp, lt))
    (hshort : shorts.getLast? = some (sp, st))
    (hlast : (op_data "1Min").getLast? = some b) :
    (b.time = st → b.time ≠ lt →
      EMACrossTestingOnly.run op_data req_data "1Min" symbol exchange =
        RunResult.ok (some { symbol := symbol, entry_ts := st, direction := Direction.SHORT,
                             timeframe := "1Min", model_name := EMACrossTestingOnly.name,
                             exchange := exchange, entry_price := sp, order_type := "Market",
                             targets := [(sp - sp * (5 / 1000 : Rat), 100)],
                             stop_price := none, trail := none, flag := false, ident := none,
                             op_data := op_data "1Min" })) ∧
    (b.time ≠ lt → b.time ≠ st →
      EMACrossTestingOnly.run op_data req_data "1Min" symbol exchange = RunResult.ok none) := by
  have hlne : longs ≠ [] := by rintro rfl; simp at hlong
  have hpos : 0 < longs.length := List.length_pos.mpr hlne
  have hpg : pyGet (op_data "1Min") (-1) = Except.ok b := pyGet_neg_one _ _ hlast
  have hll : pyLastC longs = Except.ok (lp, lt) := by simp [pyLastC, hlong]
  have hls : pyLastC shorts = Except.ok (sp, st) := by simp [pyLastC, hshort]
  constructor
  · intro hst hlt
    have htry : EMACrossTestingOnly.tryBlock (op_data "1Min") longs shorts
        "1Min" symbol exchange =
        Except.ok (some { symbol := symbol, entry_ts := st, direction := Direction.SHORT,
                          timeframe := "1Min", model_name := EMACrossTestingOnly.name,
                          exchange := exchange, entry_price := sp, order_type := "Market",
                          targets := [(sp - sp * (5 / 1000 : Rat), 100)],
                          stop_price := none, trail := none, flag := false, ident := none,
                          op_data := op_data "1Min" }) := by
      simp only [EMACrossTestingOnly.tryBlock, hpg, hll, hls]
      rw [if_neg hlt, if_pos hst]
    simp only [EMACrossTestingOnly.run, if_pos (by decide :
        "1Min" ∈ EMACrossTestingOnly.operating_timeframes), hscan,
      if_pos (Or.inl hpos), htry]
  · intro hlt hst
    have htry : EMACrossTestingOnly.tryBlock (op_data "1Min") longs shorts
        "1Min" symbol exchange = Except.ok none := by
      simp only [EMACrossTestingOnly.tryBlock, hpg, hll, hls]
      rw [if_neg hlt, if_neg hst]
    simp only [EMACrossTestingOnly.run, if_pos (by decide :
        "1Min" ∈ EMACrossTestingOnly.operating_timeframes), hscan,
      if_pos (Or.inl hpos), htry]

/-- Claim C4 witness: a six-bar series with one earlier long cross and a
short cross at the final bar; `run` emits the SHORT signal. -/
theorem ema_run_latest_trigger_selection_w :
    EMACrossTestingOnly.scan bothSidesBars = Except.ok ([(102, 2)], [(105, 5)]) ∧
    EMACrossTestingOnly.run (constData bothSidesBars) [] "1Min" "XBTUSD" "BitMEX" =
      RunResult.ok (some { symbol := "XBTUSD", entry_ts := 5, direction := Direction.SHORT,
                           timeframe := "1Min", model_name := EMACrossTestingOnly.name,
                           exchange := "BitMEX", entry_price := 105, order_type := "Market",
                           targets := [((105 : Rat) - 105 * (5 / 1000 : Rat), 100)],
                           stop_price := none, trail := none, flag := false, ident := none,
                           op_data := constData bothSidesBars "1Min" }) :=
  ⟨by decide,
    (ema_run_latest_trigger_selection (constData bothSidesBars) [] "XBTUSD" "BitMEX"
      [(102, 2)] [(105, 5)] 102 105 2 5
      { time := 5, open_ := 105, ema10 := some 10, ema20 := some 20 }
      (by decide) (by decide) (by decide) (by decide)).1 rfl (by decide)⟩

/-- Claim C5: a series with a clean long cross at the final bar (slow
below fast there, slow above fast at the two prior bars) and no short
candidates makes `run` emit exactly one LONG signal whose entry price is
the final bar's open, with a single take-profit target at entry times
1.005 closing 100% of the position and no stop-loss. -/
theorem ema_run_clean_long_cross_signal (op_data : String → List Bar)
    (req_data : List (List Bar)) (symbol exchange : String) (n : Nat)
    (b b1 b2 : Bar) (fb sb f1 s1 f2 s2 : Rat) (longs : List (Rat × Nat))
    (hn : (op_data "1Min").length = n) (h3 : 3 ≤ n)
    (hb : (op_data "1Min").get? (n - 1) = some b)
    (hb1 : (op_data "1Min").get? (n - 2) = some b1)
    (hb2 : (op_data "1Min").get? (n - 3) = some b2)
    (hf : b.ema10 = some fb) (hs : b.ema20 = some sb) (hcross : sb < fb)
    (hf1 : b1.ema10 = some f1) (hs1 : b1.ema20 = some s1) (hc1 : s1 > f1)
    (hf2 : b2.ema10 = some f2) (hs2 : b2.ema20 = some s2) (hc2 : s2 > f2)
    (hscan : EMACrossTestingOnly.scan (op_data "1Min") = Except.ok (longs, [])) :
    longs.getLast? = some (b.open_, b.time) ∧
    EMACrossTestingOnly.run op_data req_data "1Min" symbol exchange =
      RunResult.ok (some { symbol := symbol, entry_ts := b.time, direction := Direction.LONG,
                           timeframe := "1Min", model_name := EMACrossTestingOnly.name,
                           exchange := exchange, entry_price := b.open_,
                           order_type := "Market",
                           targets := [(b.open_ * (1005 / 1000 : Rat), 100)],
                           stop_price := none, trail := none, flag := false, ident := none,
                           op_data := op_data "1Min" }) := by
  have hscan0 := hscan
  have hsplit : List.range n = List.range (n - 1) ++ [n - 1] := by
    conv_lhs => rw [show n = (n - 1) + 1 by omega]
    rw [List.range_succ]
  have hscan' : EMACrossTestingOnly.scan (op_data "1Min") =
      match EMACrossTestingOnly.scanIdxs (op_data "1Min") (List.range (n - 1)) [] [] with
      | .error e => .error e
      | .ok (a, c) => EMACrossTestingOnly.scanIdxs (op_data "1Min") [n - 1] a c := by
    rw [EMACrossTestingOnly.scan, hn, hsplit, scanIdxs_append]
  rw [hscan'] at hscan
  cases hpre : EMACrossTestingOnly.scanIdxs (op_data "1Min") (List.range (n - 1)) [] [] with
  | error e => rw [hpre] at hscan; cases hscan
  | ok p =>
    obtain ⟨l0, s0⟩ := p
    rw [hpre] at hscan
    have he1 : ((n - 1 : Nat) : Int) - 1 = ((n - 2 : Nat) : Int) := by omega
    have he2 : ((n - 1 : Nat) : Int) - 2 = ((n - 3 : Nat) : Int) := by omega
    have hstep := crossStep_long (op_data "1Min") l0 s0 (n - 1) b b1 b2 fb sb f1 s1 f2 s2
      (pyGet_ofNat _ _ _ hb) (by rw [he1]; exact pyGet_ofNat _ _ _ hb1)
      (by rw [he2]; exact pyGet_ofNat _ _ _ hb2) hf hs hcross hf1 hs1 hc1 hf2 hs2 hc2
    simp only [EMACrossTestingOnly.scanIdxs, hstep] at hscan
    have hinj := Except.ok.inj hscan
    have hl : l0 ++ [(b.open_, b.time)] = longs := congrArg Prod.fst hinj
    constructor
    · rw [← hl]
      exact List.getLast?_concat l0
    · have hlast : (op_data "1Min").getLast? = some b := by
        rw [List.getLast?_eq_getElem?, hn, ← List.get?_eq_getElem?]
        exact hb
      have hpg : pyGet (op_data "1Min") (-1) = Except.ok b := pyGet_neg_one _ _ hlast
      have hlongs_ne : longs ≠ [] := by rw [← hl]; simp
      have hlpos : 0 < longs.length := List.length_pos.mpr hlongs_ne
      have hlastlong : pyLastC longs = Except.ok (b.open_, b.time) := by
        rw [pyLastC.eq_def, ← hl, List.getLast?_concat]
      have htry : EMACrossTestingOnly.tryBlock (op_data "1Min") longs [] "1Min"
          symbol exchange =
          Except.ok (some { symbol := symbol, entry_ts := b.time,
                            direction := Direction.LONG, timeframe := "1Min",
                            model_name := EMACrossTestingOnly.name, exchange := exchange,
                            entry_price := b.open_, order_type := "Market",
                            targets := [(b.open_ + b.open_ * (5 / 1000 : Rat), 100)],
                            stop_price := none, trail := none, flag := false, ident := none,
                            op_data := op_data "1Min" }) := by
        simp only [EMACrossTestingOnly.tryBlock, hpg, hlastlong]
        simp
      have hring : b.open_ + b.open_ * (5 / 1000 : Rat) = b.open_ * (1005 / 1000 : Rat) := by
        ring
      simp only [EMACrossTestingOnly.run, if_pos (by decide :
          "1Min" ∈ EMACrossTestingOnly.operating_timeframes), hscan0,
        if_pos (Or.inl hlpos), htry, hring]

/-- Claim C5 witness: the three-bar clean long cross series; `run` emits
the LONG signal with entry 102 and take-profit 102 times 1.005. -/
theorem ema_run_clean_long_cross_signal_w :
    List.getLast? [((102 : Rat), 2)] =
      some ((Bar.mk 2 102 (some 20) (some 10)).open_, (Bar.mk 2 102 (some 20) (some 10)).time) ∧
    EMACrossTestingOnly.run (constData cleanLongBars) [] "1Min" "XBTUSD" "BitMEX" =
      RunResult.ok (some { symbol := "XBTUSD",
                           entry_ts := (Bar.mk 2 102 (some 20) (some 10)).time,
                           direction := Direction.LONG, timeframe := "1Min",
                           model_name := EMACrossTestingOnly.name, exchange := "BitMEX",
                           entry_price := (Bar.mk 2 102 (some 20) (some 10)).open_,
                           order_type := "Market",
                           targets := [((Bar.mk 2 102 (some 20) (some 10)).open_ *
                             (1005 / 1000 : Rat), 100)],
                           stop_price := none, trail := none, flag := false, ident := none,
                           op_data := constData cleanLongBars "1Min" }) :=
  ema_run_clean_long_cross_signal (constData cleanLongBars) [] "XBTUSD" "BitMEX" 3
    (Bar.mk 2 102 (some 20) (some 10)) (Bar.mk 1 101 (some 10) (some 20))
    (Bar.mk 0 100 (some 10) (some 20)) 20 10 10 20 10 20 [(102, 2)]
    rfl (by decide) (by decide) (by decide) (by decide) rfl rfl (by decide)
    rfl rfl (by decide) rfl rfl (by decide) (by decide)
